import Mathlib

/-!
Verification of the PPI network construction and hub-gene ranking subsystem
(`src/network/builder.py` and `src/network/analyzer.py`).

The graph model is a shallow embedding of `networkx.Graph` as used by the
repository: an insertion-ordered node list and an edge list keyed by
unordered node pairs, where `add_edge` overwrites the stored weight of an
existing edge (dictionary overwrite) and appends a new edge otherwise.
Calls into external libraries whose numerical output the repository merely
forwards (betweenness / closeness / eigenvector centrality, Louvain
community detection) are modelled as explicit oracle inputs; everything the
repository computes itself (graph assembly, degree, density, connectivity,
normalization, ranking, statistics) is translated directly from the source.
-/

namespace HerbNet

/-- One interaction record as extracted from a STRING JSON response entry:
`nameA`/`nameB` are the resolved `preferredName_A`/`preferredName_B`
(falling back to `stringId_A`/`stringId_B`, the empty string when absent),
`score` is the record's `score` field. -/
structure InteractionRecord where
  nameA : String
  nameB : String
  score : Rat
deriving DecidableEq

/-- Embedding of `networkx.Graph`: insertion-ordered nodes, and undirected
edges stored once per unordered pair together with their `weight`. -/
structure Graph where
  nodes : List String
  edges : List (String × String × Rat)
deriving DecidableEq

/-- The empty graph `nx.Graph()`. -/
def Graph.emptyGraph : Graph := { nodes := [], edges := [] }

/-- Whether two unordered endpoint pairs denote the same edge. -/
def samePair (a b : String × String) : Bool :=
  (a.1 == b.1 && a.2 == b.2) || (a.1 == b.2 && a.2 == b.1)

/-- Whether an edge entry connects the unordered pair `(u, v)`. -/
def edgeMatches (u v : String) (e : String × String × Rat) : Bool :=
  samePair (e.1, e.2.1) (u, v)

/-- `nx.Graph.add_node`: appends the node if it is not present. -/
def Graph.addNode (g : Graph) (v : String) : Graph :=
  if v ∈ g.nodes then g else { g with nodes := g.nodes ++ [v] }

/-- `nx.Graph.add_edge(u, v, weight := w)`: ensures both endpoints are nodes
(in order `u` then `v`), then overwrites the weight of an existing edge for
the unordered pair, or appends a fresh edge.  Self-loops are representable,
exactly as in `networkx`. -/
def Graph.addEdge (g : Graph) (u v : String) (w : Rat) : Graph :=
  if ((g.addNode u).addNode v).edges.any (edgeMatches u v) then
    { (g.addNode u).addNode v with
      edges := ((g.addNode u).addNode v).edges.map
        (fun e => if edgeMatches u v e then (e.1, e.2.1, w) else e) }
  else
    { (g.addNode u).addNode v with
      edges := ((g.addNode u).addNode v).edges ++ [(u, v, w)] }

/-- Weight stored for the unordered pair `(u, v)`, if such an edge exists. -/
def Graph.edgeWeight (g : Graph) (u v : String) : Option Rat :=
  (g.edges.find? (edgeMatches u v)).map (fun e => e.2.2)

/-- Whether the graph holds an edge whose endpoints coincide. -/
def Graph.hasSelfLoop (g : Graph) : Bool :=
  g.edges.any (fun e => e.1 == e.2.1)

/-- Outcome of the `requests.post` call in `_query_string_network`:
a decoded JSON list, a non-200 HTTP response, or a raised exception. -/
inductive QueryResponse where
  | success (records : List InteractionRecord)
  | httpError (status : Nat)
  | requestException (msg : String)
deriving DecidableEq

/-- `NetworkBuilder._query_string_network`: returns the decoded record list
on HTTP 200 and the empty list on any non-200 status or raised exception
(the error is printed and swallowed, never re-raised). -/
def queryStringNetwork (resp : QueryResponse) : List InteractionRecord :=
  match resp with
  | .success records => records
  | .httpError _ => []
  | .requestException _ => []

/-- Python truthiness test `if node1 and node2:` on the two resolved names. -/
def keepRecord (r : InteractionRecord) : Bool :=
  (r.nameA != "") && (r.nameB != "")

/-- Body of the interaction loop in `build_ppi_network`: records with an
empty endpoint name are skipped, all others become `add_edge` calls. -/
def addInteraction (g : Graph) (r : InteractionRecord) : Graph :=
  if keepRecord r then g.addEdge r.nameA r.nameB r.score else g

/-- The isolated-node loop of `build_ppi_network`: every queried gene that
is not yet a node is added with no incident edges. -/
def addIsolatedNodes (g : Graph) (genes : List String) : Graph :=
  genes.foldl (fun acc gene => if gene ∈ acc.nodes then acc else acc.addNode gene) g

/-- `NetworkBuilder.build_ppi_network`: an empty gene list short-circuits to
the empty graph; otherwise the STRING response is folded into edges and the
input genes are appended as isolated nodes where missing. -/
def build_ppi_network (genes : List String) (resp : QueryResponse) : Graph :=
  if genes = [] then Graph.emptyGraph
  else
    let interactions := queryStringNetwork resp
    addIsolatedNodes (interactions.foldl addInteraction Graph.emptyGraph) genes

/-- The confidence of the last kept record for the unordered pair `(u, v)`
in a record sequence, if any: the dictionary-overwrite (last-write-wins)
merge that `networkx` applies to duplicate pairs. -/
def lastPairScore (u v : String) : List InteractionRecord → Option Rat
  | [] => none
  | r :: rs =>
    match lastPairScore u v rs with
    | some w => some w
    | none =>
      if keepRecord r && samePair (r.nameA, r.nameB) (u, v) then some r.score else none

theorem samePair_iff {a b : String × String} :
    samePair a b = true ↔ (a.1 = b.1 ∧ a.2 = b.2) ∨ (a.1 = b.2 ∧ a.2 = b.1) := by
  simp [samePair, Bool.or_eq_true, Bool.and_eq_true, beq_iff_eq]

theorem samePair_symm {a b : String × String} (h : samePair a b = true) :
    samePair b a = true := by
  rw [samePair_iff] at h ⊢
  tauto

theorem samePair_trans {a b c : String × String} (h1 : samePair a b = true)
    (h2 : samePair b c = true) : samePair a c = true := by
  rw [samePair_iff] at h1 h2 ⊢
  rcases h1 with ⟨x1, x2⟩ | ⟨x1, x2⟩ <;> rcases h2 with ⟨y1, y2⟩ | ⟨y1, y2⟩ <;>
    simp_all

theorem addNode_edges (g : Graph) (v : String) : (g.addNode v).edges = g.edges := by
  unfold Graph.addNode
  split <;> rfl

theorem addIsolatedNodes_edges (genes : List String) :
    ∀ g : Graph, (addIsolatedNodes g genes).edges = g.edges := by
  induction genes with
  | nil => intro g; rfl
  | cons gene t ih =>
    intro g
    unfold addIsolatedNodes
    rw [List.foldl_cons]
    show (addIsolatedNodes _ t).edges = g.edges
    rw [ih]
    split
    · rfl
    · exact addNode_edges g gene

theorem edgeWeight_eq_of_edges_eq {g g' : Graph} (h : g.edges = g'.edges)
    (u v : String) : g.edgeWeight u v = g'.edgeWeight u v := by
  unfold Graph.edgeWeight
  rw [h]

theorem find?_map_update_pos {a b u v : String} {w : Rat}
    (hpq : samePair (a, b) (u, v) = true) :
    ∀ l : List (String × String × Rat),
      l.any (edgeMatches a b) = true →
      ((l.map (fun e => if edgeMatches a b e then (e.1, e.2.1, w) else e)).find?
          (edgeMatches u v)).map (fun e => e.2.2) = some w := by
  intro l
  induction l with
  | nil => simp
  | cons e t ih =>
    intro hany
    cases he : edgeMatches a b e with
    | true =>
      have hm : edgeMatches u v (e.1, e.2.1, w) = true := samePair_trans he hpq
      rw [List.map_cons, if_pos he, List.find?_cons_of_pos _ hm]
      rfl
    | false =>
      have hne : ¬ edgeMatches a b e = true := by simp [he]
      have huv : edgeMatches u v e = false := by
        cases h2 : edgeMatches u v e with
        | false => rfl
        | true =>
          exact absurd
            (show edgeMatches a b e = true from samePair_trans h2 (samePair_symm hpq)) hne
      have hn2 : ¬ edgeMatches u v e = true := by simp [huv]
      rw [List.map_cons, if_neg hne, List.find?_cons_of_neg _ hn2]
      apply ih
      rw [List.any_cons, he, Bool.false_or] at hany
      exact hany

theorem find?_map_update_neg {a b u v : String} {w : Rat}
    (hpq : samePair (a, b) (u, v) = false) :
    ∀ l : List (String × String × Rat),
      ((l.map (fun e => if edgeMatches a b e then (e.1, e.2.1, w) else e)).find?
          (edgeMatches u v)).map (fun e => e.2.2) =
        (l.find? (edgeMatches u v)).map (fun e => e.2.2) := by
  intro l
  induction l with
  | nil => simp
  | cons e t ih =>
    cases he : edgeMatches a b e with
    | true =>
      have huv : edgeMatches u v e = false := by
        cases h2 : edgeMatches u v e with
        | false => rfl
        | true =>
          exact absurd (samePair_trans (samePair_symm he) h2) (by simp [hpq])
      have hn1 : ¬ edgeMatches u v (e.1, e.2.1, w) = true := by
        have : edgeMatches u v (e.1, e.2.1, w) = false := huv
        simp [this]
      have hn2 : ¬ edgeMatches u v e = true := by simp [huv]
      rw [List.map_cons, if_pos he, List.find?_cons_of_neg _ hn1,
        List.find?_cons_of_neg _ hn2]
      exact ih
    | false =>
      have hne : ¬ edgeMatches a b e = true := by simp [he]
      rw [List.map_cons, if_neg hne]
      cases h2 : edgeMatches u v e with
      | true => rw [List.find?_cons_of_pos _ h2, List.find?_cons_of_pos _ h2]
      | false =>
        have hn : ¬ edgeMatches u v e = true := by simp [h2]
        rw [List.find?_cons_of_neg _ hn, List.find?_cons_of_neg _ hn]
        exact ih

theorem find?_append_new {a b u v : String} {w : Rat} :
    ∀ l : List (String × String × Rat),
      l.any (edgeMatches a b) = false →
      ((l ++ [(a, b, w)]).find? (edgeMatches u v)).map (fun e => e.2.2) =
        (if samePair (a, b) (u, v) = true then some w
         else (l.find? (edgeMatches u v)).map (fun e => e.2.2)) := by
  intro l
  induction l with
  | nil =>
    intro _
    cases hpq : samePair (a, b) (u, v) with
    | true =>
      rw [if_pos rfl, List.nil_append,
        List.find?_cons_of_pos _ (show edgeMatches u v (a, b, w) = true from hpq)]
      rfl
    | false =>
      have hn : ¬ (false = true) := by simp
      have hm : ¬ edgeMatches u v (a, b, w) = true := by
        have : edgeMatches u v (a, b, w) = false := hpq
        simp [this]
      rw [if_neg hn, List.nil_append, List.find?_cons_of_neg _ hm]
  | cons e t ih =>
    intro hany
    rw [List.any_cons] at hany
    have he : edgeMatches a b e = false := by
      cases h : edgeMatches a b e with
      | false => rfl
      | true => rw [h, Bool.true_or] at hany; exact absurd hany (by simp)
    have ht : t.any (edgeMatches a b) = false := by
      rw [he, Bool.false_or] at hany; exact hany
    cases h2 : edgeMatches u v e with
    | true =>
      have hcf : samePair (a, b) (u, v) = false := by
        cases hq : samePair (a, b) (u, v) with
        | false => rfl
        | true =>
          exact absurd
            (show edgeMatches a b e = true from samePair_trans h2 (samePair_symm hq))
            (by simp [he])
      have hn : ¬ samePair (a, b) (u, v) = true := by simp [hcf]
      rw [if_neg hn, List.cons_append, List.find?_cons_of_pos _ h2,
        List.find?_cons_of_pos _ h2]
    | false =>
      have hn2 : ¬ edgeMatches u v e = true := by simp [h2]
      rw [List.cons_append, List.find?_cons_of_neg _ hn2, List.find?_cons_of_neg _ hn2]
      exact ih ht

/-- Effect of one `add_edge` call on the stored weight of any pair: the
touched pair now carries the new weight, every other pair is unchanged. -/
theorem edgeWeight_addEdge (g : Graph) (a b u v : String) (w : Rat) :
    (g.addEdge a b w).edgeWeight u v =
      if samePair (a, b) (u, v) = true then some w else g.edgeWeight u v := by
  unfold Graph.addEdge Graph.edgeWeight
  rw [addNode_edges, addNode_edges]
  by_cases hany : g.edges.any (edgeMatches a b) = true
  · rw [if_pos hany]
    by_cases hpq : samePair (a, b) (u, v) = true
    · simp only [if_pos hpq]
      exact find?_map_update_pos hpq g.edges hany
    · have hpq' : samePair (a, b) (u, v) = false := by
        revert hpq
        cases samePair (a, b) (u, v) <;> simp
      simp only [if_neg hpq]
      exact find?_map_update_neg hpq' g.edges
  · have hany' : g.edges.any (edgeMatches a b) = false := by
      revert hany
      cases g.edges.any (edgeMatches a b) <;> simp
    rw [if_neg hany]
    exact find?_append_new g.edges hany'

/-- Folding the interaction loop realises the last-write-wins merge. -/
theorem edgeWeight_foldl_addInteraction (u v : String) :
    ∀ (recs : List InteractionRecord) (g : Graph),
      ((recs.foldl addInteraction g).edgeWeight u v) =
        (match lastPairScore u v recs with
         | some w => some w
         | none => g.edgeWeight u v) := by
  intro recs
  induction recs with
  | nil => intro g; rfl
  | cons r rs ih =>
    intro g
    rw [List.foldl_cons, ih]
    cases h : lastPairScore u v rs with
    | some w =>
      simp only [lastPairScore, h]
    | none =>
      simp only [lastPairScore, h]
      unfold addInteraction
      by_cases hk : keepRecord r = true
      · rw [if_pos hk, edgeWeight_addEdge]
        by_cases hp : samePair (r.nameA, r.nameB) (u, v) = true
        · rw [if_pos hp, if_pos (by simp [hk, hp])]
        · have hp' : samePair (r.nameA, r.nameB) (u, v) = false := by
            revert hp
            cases samePair (r.nameA, r.nameB) (u, v) <;> simp
          rw [if_neg hp, if_neg (by simp [hp'])]
      · have hk' : keepRecord r = false := by
          revert hk
          cases keepRecord r <;> simp
        have hcond : ¬ (keepRecord r && samePair (r.nameA, r.nameB) (u, v)) = true := by
          simp [hk']
        rw [if_neg hk, if_neg hcond]

theorem hasSelfLoop_addNode (g : Graph) (v : String) :
    (g.addNode v).hasSelfLoop = g.hasSelfLoop := by
  unfold Graph.hasSelfLoop
  rw [addNode_edges]

theorem any_selfLoop_map_update (u v : String) (w : Rat) :
    ∀ l : List (String × String × Rat),
      (l.map (fun e => if edgeMatches u v e then (e.1, e.2.1, w) else e)).any
          (fun e => e.1 == e.2.1) =
        l.any (fun e => e.1 == e.2.1) := by
  intro l
  induction l with
  | nil => rfl
  | cons e t ih =>
    cases he : edgeMatches u v e with
    | true =>
      have hhead : (((e.1, e.2.1, w) : String × String × Rat).1 == (e.1, e.2.1, w).2.1) =
          (e.1 == e.2.1) := rfl
      rw [List.map_cons, if_pos he, List.any_cons, List.any_cons, hhead, ih]
    | false =>
      have hne : ¬ edgeMatches u v e = true := by simp [he]
      rw [List.map_cons, if_neg hne, List.any_cons, List.any_cons, ih]

theorem hasSelfLoop_addEdge_mono (g : Graph) (u v : String) (w : Rat)
    (h : g.hasSelfLoop = true) : (g.addEdge u v w).hasSelfLoop = true := by
  unfold Graph.addEdge
  split
  · show (_ : Graph).hasSelfLoop = true
    unfold Graph.hasSelfLoop at h ⊢
    simp only [addNode_edges]
    rw [any_selfLoop_map_update]
    exact h
  · show (_ : Graph).hasSelfLoop = true
    unfold Graph.hasSelfLoop at h ⊢
    simp only [addNode_edges]
    rw [List.any_append, h, Bool.true_or]

theorem hasSelfLoop_addEdge_self (g : Graph) (a : String) (w : Rat) :
    (g.addEdge a a w).hasSelfLoop = true := by
  unfold Graph.addEdge
  split
  case isTrue hany =>
    show (_ : Graph).hasSelfLoop = true
    unfold Graph.hasSelfLoop
    simp only [addNode_edges] at hany ⊢
    rw [any_selfLoop_map_update]
    rw [List.any_eq_true] at hany ⊢
    obtain ⟨e, hmem, hmatch⟩ := hany
    refine ⟨e, hmem, ?_⟩
    have := samePair_iff.mp hmatch
    have heq : e.1 = e.2.1 := by
      rcases this with ⟨h1, h2⟩ | ⟨h1, h2⟩ <;> simp_all
    simp [heq]
  case isFalse hany =>
    show (_ : Graph).hasSelfLoop = true
    unfold Graph.hasSelfLoop
    simp only [addNode_edges]
    rw [List.any_append]
    have : ([(a, a, w)] : List (String × String × Rat)).any (fun e => e.1 == e.2.1) = true := by
      simp
    rw [this, Bool.or_true]

theorem hasSelfLoop_addInteraction_mono (g : Graph) (r : InteractionRecord)
    (h : g.hasSelfLoop = true) : (addInteraction g r).hasSelfLoop = true := by
  unfold addInteraction
  split
  · exact hasSelfLoop_addEdge_mono _ _ _ _ h
  · exact h

theorem hasSelfLoop_foldl_mono (recs : List InteractionRecord) :
    ∀ g : Graph, g.hasSelfLoop = true →
      (recs.foldl addInteraction g).hasSelfLoop = true := by
  induction recs with
  | nil => intro g h; exact h
  | cons r rs ih =>
    intro g h
    rw [List.foldl_cons]
    exact ih _ (hasSelfLoop_addInteraction_mono g r h)

theorem hasSelfLoop_foldl_of_selfLoop_record {r : InteractionRecord}
    (hab : r.nameA = r.nameB) (hne : r.nameA ≠ "") :
    ∀ (recs : List InteractionRecord) (g : Graph), r ∈ recs →
      (recs.foldl addInteraction g).hasSelfLoop = true := by
  intro recs
  induction recs with
  | nil => intro g h; exact absurd h (List.not_mem_nil r)
  | cons x t ih =>
    intro g hmem
    rw [List.foldl_cons]
    rcases List.mem_cons.mp hmem with heq | htail
    · subst heq
      apply hasSelfLoop_foldl_mono
      have hkeep : keepRecord r = true := by
        unfold keepRecord
        rw [← hab]
        simp [hne]
      unfold addInteraction
      rw [if_pos hkeep, ← hab]
      exact hasSelfLoop_addEdge_self g r.nameA r.score
    · exact ih _ htail

theorem hasSelfLoop_addIsolatedNodes (g : Graph) (genes : List String) :
    (addIsolatedNodes g genes).hasSelfLoop = g.hasSelfLoop := by
  unfold Graph.hasSelfLoop
  rw [addIsolatedNodes_edges]

theorem mem_addNode_nodes_iff (g : Graph) (v x : String) :
    x ∈ (g.addNode v).nodes ↔ (x ∈ g.nodes ∨ x = v) := by
  unfold Graph.addNode
  split
  case isTrue h =>
    constructor
    · exact fun hx => Or.inl hx
    · rintro (hx | rfl)
      · exact hx
      · exact h
  case isFalse h =>
    show x ∈ g.nodes ++ [v] ↔ _
    rw [List.mem_append, List.mem_singleton]

theorem mem_addIsolatedNodes_nodes_iff (x : String) :
    ∀ (genes : List String) (g : Graph),
      x ∈ (addIsolatedNodes g genes).nodes ↔ (x ∈ g.nodes ∨ x ∈ genes) := by
  intro genes
  induction genes with
  | nil =>
    intro g
    simp [addIsolatedNodes]
  | cons gene t ih =>
    intro g
    unfold addIsolatedNodes
    rw [List.foldl_cons]
    show x ∈ (addIsolatedNodes _ t).nodes ↔ _
    rw [ih]
    constructor
    · rintro (hx | hx)
      · split at hx
        case isTrue h => exact Or.inl hx
        case isFalse h =>
          rcases (mem_addNode_nodes_iff g gene x).mp hx with hx' | rfl
          · exact Or.inl hx'
          · exact Or.inr (List.mem_cons_self _ _)
      · exact Or.inr (List.mem_cons_of_mem _ hx)
    · rintro (hx | hx)
      · refine Or.inl ?_
        split
        case isTrue h => exact hx
        case isFalse h => exact (mem_addNode_nodes_iff g gene x).mpr (Or.inl hx)
      · rcases List.mem_cons.mp hx with rfl | hx'
        · refine Or.inl ?_
          split
          case isTrue h => exact h
          case isFalse h => exact (mem_addNode_nodes_iff g x x).mpr (Or.inr rfl)
        · exact Or.inr hx'

/-- Exception raised by `nx.eigenvector_centrality` when power iteration
exhausts its iteration budget — the only exception
`calculate_eigenvector_centrality` catches. -/
inductive PowerIterationFailedConvergence where
  | mk
deriving DecidableEq

/-- The two ways `nx.eigenvector_centrality` can fail: the deterministic
`NetworkXPointlessConcept` raised on the null graph before any iteration
starts (never caught by the analyzer, so it propagates out of
`identify_hub_genes`), and `PowerIterationFailedConvergence` (caught). -/
inductive EigenvectorFailure where
  | networkXPointlessConcept
  | powerIterationFailedConvergence
deriving DecidableEq

instance exceptDecEq {ε α : Type} [DecidableEq ε] [DecidableEq α] :
    DecidableEq (Except ε α) := fun a b =>
  match a, b with
  | Except.ok x, Except.ok y =>
    if h : x = y then Decidable.isTrue (by rw [h])
    else Decidable.isFalse (fun hc => h (Except.ok.inj hc))
  | Except.error x, Except.error y =>
    if h : x = y then Decidable.isTrue (by rw [h])
    else Decidable.isFalse (fun hc => h (Except.error.inj hc))
  | Except.ok _, Except.error _ => Decidable.isFalse (fun hc => Except.noConfusion hc)
  | Except.error _, Except.ok _ => Decidable.isFalse (fun hc => Except.noConfusion hc)

/-- Results of the NetworkX centrality calls whose numerics the analyzer
merely forwards.  `betweenness` and `closeness` are node-keyed maps;
`eigenvector` is the outcome of the power iteration itself — it either
converged to a map or raised `PowerIterationFailedConvergence`.  The power
iteration is only ever reached on a non-null graph: on the null graph
`nx.eigenvector_centrality` raises `NetworkXPointlessConcept` before
iterating, deterministically in the graph, which is therefore modelled in
`nxEigenvectorCentrality` rather than as an oracle outcome. -/
structure CentralityOracles where
  betweenness : List (String × Rat)
  closeness : List (String × Rat)
  eigenvector : Except PowerIterationFailedConvergence (List (String × Rat))
deriving DecidableEq

/-- `nx.eigenvector_centrality(g, max_iter=1000)`: raises
`NetworkXPointlessConcept` ("cannot compute centrality for the null
graph") when the graph has no nodes, before any power iteration; otherwise
the outcome is the oracle's power-iteration result. -/
def nxEigenvectorCentrality (g : Graph) (o : CentralityOracles) :
    Except EigenvectorFailure (List (String × Rat)) :=
  if g.nodes = [] then Except.error EigenvectorFailure.networkXPointlessConcept
  else
    match o.eigenvector with
    | Except.ok m => Except.ok m
    | Except.error _ => Except.error EigenvectorFailure.powerIterationFailedConvergence

/-- `NetworkAnalyzer.calculate_eigenvector_centrality`: the
`try/except nx.PowerIterationFailedConvergence` at analyzer.py:102-108
catches only the convergence failure (printing a warning, returning `{}`
and leaving the metric dictionary unset — `none` here);
`NetworkXPointlessConcept` is not caught and propagates to the caller. -/
def calculate_eigenvector_centrality (g : Graph) (o : CentralityOracles) :
    Except String (Option (List (String × Rat))) :=
  match nxEigenvectorCentrality g o with
  | Except.ok m => Except.ok (some m)
  | Except.error EigenvectorFailure.powerIterationFailedConvergence => Except.ok none
  | Except.error EigenvectorFailure.networkXPointlessConcept =>
      Except.error "cannot compute centrality for the null graph"

/-- Python `dict.get(node, 0)` on a node-keyed metric map. -/
def lookupD (m : List (String × Rat)) (k : String) : Rat :=
  match m.find? (fun p => p.1 == k) with
  | some p => p.2
  | none => 0

/-- `nx.Graph.degree`: number of incident edges, self-loops counted twice. -/
def Graph.degree (g : Graph) (v : String) : Nat :=
  g.edges.foldl
    (fun acc e =>
      acc + (if e.1 == v && e.2.1 == v then 2 else if e.1 == v || e.2.1 == v then 1 else 0))
    0

/-- `nx.degree_centrality`: every node of a graph with at most one node is
assigned 1; otherwise raw degree divided by `n - 1`. -/
def Graph.degreeCentralityOf (g : Graph) (v : String) : Rat :=
  if g.nodes.length ≤ 1 then 1
  else (g.degree v : Rat) / ((g.nodes.length : Rat) - 1)

/-- One row of the DataFrame built by
`NetworkAnalyzer.calculate_all_centralities`. -/
structure CentralityRow where
  gene : String
  degree : Nat
  degree_centrality : Rat
  betweenness_centrality : Rat
  closeness_centrality : Rat
  eigenvector_centrality : Rat
deriving DecidableEq

/-- The rows of the DataFrame built by
`NetworkAnalyzer.calculate_all_centralities` whenever the eigenvector step
did not propagate `NetworkXPointlessConcept` (see
`calculate_eigenvector_centrality`; `identify_hub_genes` only consumes
these rows in that case, and on the null graph the row list is empty):
one row per node in node insertion order; the eigenvector column falls
back to 0 for every node when power iteration failed to converge, because
the metric dictionary was never populated (`.get(node, 0)`). -/
def calculate_all_centralities (g : Graph) (o : CentralityOracles) : List CentralityRow :=
  g.nodes.map (fun node =>
    { gene := node
      degree := g.degree node
      degree_centrality := g.degreeCentralityOf node
      betweenness_centrality := lookupD o.betweenness node
      closeness_centrality := lookupD o.closeness node
      eigenvector_centrality :=
        match o.eigenvector with
        | .ok m => lookupD m node
        | .error _ => 0 })

/-- One record of `identify_hub_genes`' output.  The `_norm` columns and
`combined_score` exist only when the ranking method is `combined` (pandas
adds those columns only in that branch), hence the `Option`. -/
structure HubRow where
  gene : String
  degree : Nat
  degree_centrality : Rat
  betweenness_centrality : Rat
  closeness_centrality : Rat
  eigenvector_centrality : Rat
  degree_centrality_norm : Option Rat
  betweenness_centrality_norm : Option Rat
  closeness_centrality_norm : Option Rat
  eigenvector_centrality_norm : Option Rat
  combined_score : Option Rat
deriving DecidableEq

/-- A centrality row viewed as a hub record outside the `combined` branch. -/
def toHubRow (r : CentralityRow) : HubRow :=
  { gene := r.gene
    degree := r.degree
    degree_centrality := r.degree_centrality
    betweenness_centrality := r.betweenness_centrality
    closeness_centrality := r.closeness_centrality
    eigenvector_centrality := r.eigenvector_centrality
    degree_centrality_norm := none
    betweenness_centrality_norm := none
    closeness_centrality_norm := none
    eigenvector_centrality_norm := none
    combined_score := none }

/-- `pandas.Series.max` over a column (only ever compared against 0; an
empty column — possible only for an empty graph — yields 0 here where
pandas yields NaN, and both fail the `max_val > 0` test identically). -/
def colMax (xs : List Rat) : Rat :=
  match xs with
  | [] => 0
  | x :: r => r.foldl max x

/-- The per-column normalization of the `combined` branch: division by the
column maximum when it is positive, otherwise the constant 0 column. -/
def normVal (mx v : Rat) : Rat :=
  if mx > 0 then v / mx else 0

/-- The `combined` branch of `identify_hub_genes`: appends the four
`_norm` columns and `combined_score`, the row mean of the four normalized
columns. -/
def combinedRows (rows : List CentralityRow) : List HubRow :=
  rows.map (fun r =>
    { gene := r.gene
      degree := r.degree
      degree_centrality := r.degree_centrality
      betweenness_centrality := r.betweenness_centrality
      closeness_centrality := r.closeness_centrality
      eigenvector_centrality := r.eigenvector_centrality
      degree_centrality_norm :=
        some (normVal (colMax (rows.map (fun s => s.degree_centrality))) r.degree_centrality)
      betweenness_centrality_norm :=
        some (normVal (colMax (rows.map (fun s => s.betweenness_centrality)))
          r.betweenness_centrality)
      closeness_centrality_norm :=
        some (normVal (colMax (rows.map (fun s => s.closeness_centrality)))
          r.closeness_centrality)
      eigenvector_centrality_norm :=
        some (normVal (colMax (rows.map (fun s => s.eigenvector_centrality)))
          r.eigenvector_centrality)
      combined_score :=
        some ((normVal (colMax (rows.map (fun s => s.degree_centrality))) r.degree_centrality +
          normVal (colMax (rows.map (fun s => s.betweenness_centrality)))
            r.betweenness_centrality +
          normVal (colMax (rows.map (fun s => s.closeness_centrality))) r.closeness_centrality +
          normVal (colMax (rows.map (fun s => s.eigenvector_centrality)))
            r.eigenvector_centrality) / 4) })

/-- Stable insertion of a later row into an already descending-sorted
accumulator: the new row goes after every row whose key is ≥ its own. -/
def insertDescBy {α : Type} (key : α → Rat) (r : α) : List α → List α
  | [] => [r]
  | x :: xs => if key x < key r then r :: x :: xs else x :: insertDescBy key r xs

/-- `DataFrame.sort_values(col, ascending := False)` as observed on these
frames: a stable descending sort (ties keep DataFrame row order). -/
def sortValuesDescending {α : Type} (key : α → Rat) (l : List α) : List α :=
  l.foldl (fun acc r => insertDescBy key r acc) []

/-- `DataFrame.head(n)`: the first `n` rows for `n ≥ 0`, and all but the
last `|n|` rows for negative `n` (pandas `iloc[:n]` slicing). -/
def dfHead {α : Type} (n : Int) (l : List α) : List α :=
  if 0 ≤ n then l.take n.toNat else l.take (l.length - (-n).toNat)

/-- The five method strings `identify_hub_genes` can sort by. -/
def hubMethods : List String :=
  ["degree", "betweenness", "closeness", "eigenvector", "combined"]

/-- `NetworkAnalyzer.identify_hub_genes`: recomputes the centrality frame,
sorts it descending by the chosen key (`combined_score` after
normalization for `combined`, the raw `degree` column for `degree`, the
`{method}_centrality` column otherwise) and keeps the head.  On the
zero-node graph the `calculate_all_centralities` call raises first: its
eigenvector step hits `nx.eigenvector_centrality`'s uncaught
`NetworkXPointlessConcept` (see `calculate_eigenvector_centrality`), so
the whole call fails for every method and `top_n` — the leading guard here
is exactly that propagated exception, as
`identify_null_graph_propagates_eigenvector_failure` records.  Otherwise a
method outside `hubMethods` makes `sort_values` raise a `KeyError` for the
missing column `{method}_centrality`. -/
def identify_hub_genes (g : Graph) (o : CentralityOracles) (top_n : Int)
    (method : String) : Except String (List HubRow) :=
  if g.nodes = [] then
    Except.error "cannot compute centrality for the null graph"
  else if method = "combined" then
    Except.ok (dfHead top_n (sortValuesDescending (fun r => r.combined_score.getD 0)
      (combinedRows (calculate_all_centralities g o))))
  else if method = "degree" then
    Except.ok (dfHead top_n (sortValuesDescending (fun r => (r.degree : Rat))
      ((calculate_all_centralities g o).map toHubRow)))
  else if method = "betweenness" then
    Except.ok (dfHead top_n (sortValuesDescending (fun r => r.betweenness_centrality)
      ((calculate_all_centralities g o).map toHubRow)))
  else if method = "closeness" then
    Except.ok (dfHead top_n (sortValuesDescending (fun r => r.closeness_centrality)
      ((calculate_all_centralities g o).map toHubRow)))
  else if method = "eigenvector" then
    Except.ok (dfHead top_n (sortValuesDescending (fun r => r.eigenvector_centrality)
      ((calculate_all_centralities g o).map toHubRow)))
  else
    Except.error (method ++ "_centrality")

/-- Neighbours of `v` (one entry per incident edge; contains `v` itself
exactly when a self-loop is present). -/
def Graph.neighbors (g : Graph) (v : String) : List String :=
  g.edges.filterMap (fun e =>
    if e.1 == v then some e.2.1 else if e.2.1 == v then some e.1 else none)

/-- Bounded function iteration (enough fuel replaces unbounded loops). -/
def iterApply {α : Type} (f : α → α) : Nat → α → α
  | 0, a => a
  | n + 1, a => iterApply f n (f a)

/-- One breadth-first expansion of a visited set. -/
def expandOnce (g : Graph) (visited : List String) : List String :=
  visited.foldl
    (fun acc v =>
      (g.neighbors v).foldl (fun acc2 u => if u ∈ acc2 then acc2 else acc2 ++ [u]) acc)
    visited

/-- All nodes reachable from `s` (the BFS closure stabilises within
`g.nodes.length` expansions). -/
def Graph.reachableFrom (g : Graph) (s : String) : List String :=
  iterApply (expandOnce g) g.nodes.length [s]

/-- `nx.is_connected` applied to a non-null graph: BFS from the first node
reaches as many nodes as the graph has. -/
def Graph.isConnectedGraph (g : Graph) : Bool :=
  match g.nodes with
  | [] => false
  | v :: _ => (g.reachableFrom v).length == g.nodes.length

/-- `nx.connected_components` in node iteration order. -/
def Graph.connectedComponentsList (g : Graph) : List (List String) :=
  g.nodes.foldl
    (fun comps v => if comps.any (fun c => v ∈ c) then comps else comps ++ [g.reachableFrom v])
    []

/-- `max(components, key := len)`: the first component of maximal size. -/
def largestComponent (comps : List (List String)) : List String :=
  match comps with
  | [] => []
  | c :: rest => rest.foldl (fun best x => if best.length < x.length then x else best) c

/-- One BFS level step carrying (distance map, frontier, current depth). -/
def bfsRound (g : Graph) (st : List (String × Nat) × List String × Nat) :
    List (String × Nat) × List String × Nat :=
  let dist := st.1
  let frontier := st.2.1
  let d := st.2.2
  let nf := frontier.foldl
    (fun acc v =>
      (g.neighbors v).foldl
        (fun acc2 u =>
          if dist.any (fun p => p.1 == u) || acc2.any (fun x => x == u) then acc2
          else acc2 ++ [u])
        acc)
    []
  (dist ++ nf.map (fun u => (u, d + 1)), nf, d + 1)

/-- Shortest-path distances from `s` to every reachable node. -/
def Graph.bfsDistances (g : Graph) (s : String) : List (String × Nat) :=
  (iterApply (bfsRound g) g.nodes.length ([(s, 0)], [s], 0)).1

/-- `nx.eccentricity`: largest BFS distance from `v`. -/
def Graph.eccentricity (g : Graph) (v : String) : Nat :=
  (g.bfsDistances v).foldl (fun acc p => max acc p.2) 0

/-- `nx.diameter`: largest eccentricity (evaluated on connected graphs). -/
def Graph.graphDiameter (g : Graph) : Nat :=
  g.nodes.foldl (fun acc v => max acc (g.eccentricity v)) 0

/-- `nx.average_shortest_path_length`: pair-distance sum over `n·(n−1)`,
defined as 0 for a single-node graph as in NetworkX. -/
def Graph.averagePathLength (g : Graph) : Rat :=
  if g.nodes.length ≤ 1 then 0
  else
    (g.nodes.foldl
        (fun acc v => acc + ((g.bfsDistances v).foldl (fun a p => a + (p.2 : Rat)) 0)) 0) /
      ((g.nodes.length : Rat) * ((g.nodes.length : Rat) - 1))

/-- `nx.density`: 0 when there are no edges or at most one node, else
`2·m / (n·(n−1))`. -/
def Graph.density (g : Graph) : Rat :=
  if g.edges.length = 0 ∨ g.nodes.length ≤ 1 then 0
  else (2 * (g.edges.length : Rat)) / ((g.nodes.length : Rat) * ((g.nodes.length : Rat) - 1))

/-- The node subgraph induced by a vertex subset. -/
def Graph.subgraphOf (g : Graph) (vs : List String) : Graph :=
  { nodes := g.nodes.filter (fun v => v ∈ vs)
    edges := g.edges.filter (fun e => e.1 ∈ vs ∧ e.2.1 ∈ vs) }

/-- Whether an edge joins `u` and `v`. -/
def Graph.adjacentB (g : Graph) (u v : String) : Bool :=
  g.edges.any (edgeMatches u v)

/-- Number of adjacent unordered pairs within a node list. -/
def countAdjacentPairs (g : Graph) : List String → Nat
  | [] => 0
  | x :: xs => (xs.filter (fun y => g.adjacentB x y)).length + countAdjacentPairs g xs

/-- `nx.clustering`: local clustering coefficient (self-loops excluded
from the neighbourhood, as in NetworkX). -/
def Graph.clusteringCoefficient (g : Graph) (v : String) : Rat :=
  let nbrs := ((g.neighbors v).filter (fun u => u ≠ v)).dedup
  if nbrs.length < 2 then 0
  else (2 * (countAdjacentPairs g nbrs : Rat)) /
    ((nbrs.length : Rat) * ((nbrs.length : Rat) - 1))

/-- `nx.average_clustering`: mean local clustering coefficient. -/
def Graph.averageClustering (g : Graph) : Rat :=
  if g.nodes.length = 0 then 0
  else (g.nodes.foldl (fun acc v => acc + g.clusteringCoefficient v) 0) /
    (g.nodes.length : Rat)

/-- The statistics dictionary assembled by `get_network_statistics`; keys
written only on one side of the connectivity split are `Option`s. -/
structure NetworkStatistics where
  nodes : Nat
  edges : Nat
  density : Rat
  average_degree : Rat
  diameter : Option Nat
  average_path_length : Option Rat
  largest_component_nodes : Option Nat
  number_of_components : Option Nat
  diameter_largest : Option Nat
  average_path_length_largest : Option Rat
  average_clustering : Rat
deriving DecidableEq

/-- `NetworkAnalyzer.get_network_statistics`: on the null graph the
`nx.is_connected` call raises `NetworkXPointlessConcept` ("Connectivity is
undefined for the null graph."); otherwise the full statistics record is
returned, with diameter and average path length taken on the whole graph
when connected and on the largest component (when it has more than one
node) otherwise. -/
def get_network_statistics (g : Graph) : Except String NetworkStatistics :=
  match g.nodes with
  | [] => Except.error "Connectivity is undefined for the null graph."
  | _ :: _ =>
    Except.ok
      { nodes := g.nodes.length
        edges := g.edges.length
        density := g.density
        average_degree :=
          (g.nodes.foldl (fun acc v => acc + (g.degree v : Rat)) 0) / (g.nodes.length : Rat)
        diameter := if g.isConnectedGraph then some g.graphDiameter else none
        average_path_length := if g.isConnectedGraph then some g.averagePathLength else none
        largest_component_nodes :=
          if g.isConnectedGraph then none
          else some (largestComponent g.connectedComponentsList).length
        number_of_components :=
          if g.isConnectedGraph then none else some g.connectedComponentsList.length
        diameter_largest :=
          if g.isConnectedGraph then none
          else if 1 < (largestComponent g.connectedComponentsList).length then
            some (g.subgraphOf (largestComponent g.connectedComponentsList)).graphDiameter
          else none
        average_path_length_largest :=
          if g.isConnectedGraph then none
          else if 1 < (largestComponent g.connectedComponentsList).length then
            some (g.subgraphOf (largestComponent g.connectedComponentsList)).averagePathLength
          else none
        average_clustering := g.averageClustering }

/-- `NetworkAnalyzer.perform_clustering` after the external
`community.louvain_communities(self.network)` call returned `communities`:
the result is formatted as `cluster_{i+1} ↦ members`.  The library call is
made with its default `seed=None` — no seed is passed — so `communities`
is an uncontrolled input here, not a function of the graph. -/
def perform_clustering (communities : List (List String)) : List (String × List String) :=
  communities.enum.map (fun p => ("cluster_" ++ toString (p.1 + 1), p.2))

/-- Modelled from the spec: "each of the four centralities is min-max
normalized to [0,1] across all nodes (if the maximum is 0, the normalized
column is all zeros — no division by zero)" — the textbook
`(x − min) / (max − min)` column transform the claim asserts. -/
def minMaxNormalizeSpec (xs : List Rat) : List Rat :=
  if colMax xs > 0 then
    xs.map (fun x =>
      (x - (match xs with | [] => 0 | y :: r => r.foldl min y)) /
        (colMax xs - (match xs with | [] => 0 | y :: r => r.foldl min y)))
  else xs.map (fun _ => 0)

theorem length_insertDescBy {α : Type} (key : α → Rat) (r : α) :
    ∀ l : List α, (insertDescBy key r l).length = l.length + 1 := by
  intro l
  induction l with
  | nil => rfl
  | cons x xs ih =>
    unfold insertDescBy
    split
    · rfl
    · simp only [List.length_cons, ih]

theorem length_sortValuesDescending {α : Type} (key : α → Rat) (l : List α) :
    (sortValuesDescending key l).length = l.length := by
  unfold sortValuesDescending
  suffices h : ∀ acc : List α,
      (l.foldl (fun acc r => insertDescBy key r acc) acc).length = acc.length + l.length by
    simpa using h []
  induction l with
  | nil => intro acc; simp
  | cons x xs ih =>
    intro acc
    rw [List.foldl_cons, ih, length_insertDescBy]
    simp only [List.length_cons]
    omega

theorem mem_insertDescBy {α : Type} (key : α → Rat) (r x : α) :
    ∀ l : List α, x ∈ insertDescBy key r l → x = r ∨ x ∈ l := by
  intro l
  induction l with
  | nil =>
    intro h
    rcases List.mem_singleton.mp h with rfl
    exact Or.inl rfl
  | cons y ys ih =>
    unfold insertDescBy
    split
    · intro h
      rcases List.mem_cons.mp h with rfl | h2
      · exact Or.inl rfl
      · exact Or.inr h2
    · intro h
      rcases List.mem_cons.mp h with rfl | h2
      · exact Or.inr (List.mem_cons_self _ _)
      · rcases ih h2 with rfl | h3
        · exact Or.inl rfl
        · exact Or.inr (List.mem_cons_of_mem _ h3)

theorem mem_sortValuesDescending {α : Type} (key : α → Rat) (l : List α) (x : α) :
    x ∈ sortValuesDescending key l → x ∈ l := by
  unfold sortValuesDescending
  suffices h : ∀ acc : List α,
      x ∈ l.foldl (fun acc r => insertDescBy key r acc) acc → x ∈ acc ∨ x ∈ l by
    intro hx
    rcases h [] hx with hc | hc
    · exact absurd hc (List.not_mem_nil x)
    · exact hc
  induction l with
  | nil => intro acc h; exact Or.inl h
  | cons y ys ih =>
    intro acc h
    rw [List.foldl_cons] at h
    rcases ih _ h with hc | hc
    · rcases mem_insertDescBy key y x acc hc with rfl | h3
      · exact Or.inr (List.mem_cons_self _ _)
      · exact Or.inl h3
    · exact Or.inr (List.mem_cons_of_mem _ hc)

theorem chain'_insertDescBy {α : Type} (key : α → Rat) (r : α) :
    ∀ l : List α, List.Chain' (fun a b => key b ≤ key a) l →
      List.Chain' (fun a b => key b ≤ key a) (insertDescBy key r l) := by
  intro l
  induction l with
  | nil => intro _; simp [insertDescBy]
  | cons x t ih =>
    intro h
    unfold insertDescBy
    split
    case isTrue hx =>
      exact List.chain'_cons.mpr ⟨le_of_lt hx, h⟩
    case isFalse hx =>
      have hrx : key r ≤ key x := le_of_not_lt hx
      cases t with
      | nil =>
        simp only [insertDescBy]
        exact List.chain'_cons.mpr ⟨hrx, List.chain'_singleton r⟩
      | cons y t2 =>
        have h2 := List.chain'_cons.mp h
        have ihy := ih h2.2
        simp only [insertDescBy] at ihy ⊢
        split
        case isTrue hy =>
          exact List.chain'_cons.mpr ⟨hrx, List.chain'_cons.mpr ⟨le_of_lt hy, h2.2⟩⟩
        case isFalse hy =>
          rw [if_neg hy] at ihy
          exact List.chain'_cons.mpr ⟨h2.1, ihy⟩

theorem chain'_sortValuesDescending {α : Type} (key : α → Rat) (l : List α) :
    List.Chain' (fun a b => key b ≤ key a) (sortValuesDescending key l) := by
  unfold sortValuesDescending
  suffices h : ∀ acc : List α, List.Chain' (fun a b => key b ≤ key a) acc →
      List.Chain' (fun a b => key b ≤ key a)
        (l.foldl (fun acc r => insertDescBy key r acc) acc) from
    h [] List.chain'_nil
  induction l with
  | nil => intro acc h; exact h
  | cons x t ih =>
    intro acc h
    rw [List.foldl_cons]
    exact ih _ (chain'_insertDescBy key x acc h)

theorem chain'_take {α : Type} {R : α → α → Prop} :
    ∀ (l : List α) (n : Nat), List.Chain' R l → List.Chain' R (l.take n) := by
  intro l
  induction l with
  | nil => intro n _; simp
  | cons x t ih =>
    intro n h
    cases n with
    | zero => simp
    | succ m =>
      rw [List.take_succ_cons]
      cases t with
      | nil => simp
      | cons y t2 =>
        have h2 := List.chain'_cons.mp h
        cases m with
        | zero => simp
        | succ m2 =>
          rw [List.take_succ_cons]
          refine List.chain'_cons.mpr ⟨h2.1, ?_⟩
          rw [← List.take_succ_cons]
          exact ih _ h2.2

theorem le_colMax {xs : List Rat} {x : Rat} (h : x ∈ xs) : x ≤ colMax xs := by
  have haux : ∀ (l : List Rat) (a : Rat), a ≤ l.foldl max a := by
    intro l
    induction l with
    | nil => intro a; exact le_refl a
    | cons b t ih =>
      intro a
      rw [List.foldl_cons]
      exact le_trans (le_max_left a b) (ih (max a b))
  have hmem : ∀ (l : List Rat) (a : Rat), x ∈ l → x ≤ l.foldl max a := by
    intro l
    induction l with
    | nil => intro a hx; exact absurd hx (List.not_mem_nil x)
    | cons b t ih =>
      intro a hx
      rw [List.foldl_cons]
      rcases List.mem_cons.mp hx with rfl | hx2
      · exact le_trans (le_max_right a x) (haux t (max a x))
      · exact ih (max a b) hx2
  cases xs with
  | nil => exact absurd h (List.not_mem_nil x)
  | cons y t =>
    rcases List.mem_cons.mp h with rfl | h2
    · exact haux t x
    · exact hmem t y h2

theorem normVal_bounds {mx v : Rat} (h0 : 0 ≤ v) (hle : v ≤ mx) :
    0 ≤ normVal mx v ∧ normVal mx v ≤ 1 := by
  unfold normVal
  split
  case isTrue h =>
    exact ⟨div_nonneg h0 (le_of_lt h), (div_le_one h).mpr hle⟩
  case isFalse h =>
    exact ⟨le_refl 0, zero_le_one⟩

theorem degreeCentralityOf_nonneg (g : Graph) (v : String) :
    0 ≤ g.degreeCentralityOf v := by
  unfold Graph.degreeCentralityOf
  split
  case isTrue h => exact zero_le_one
  case isFalse h =>
    apply div_nonneg
    · exact_mod_cast Nat.zero_le _
    · have h2 : 2 ≤ g.nodes.length := by omega
      have : (2 : Rat) ≤ (g.nodes.length : Rat) := by exact_mod_cast h2
      linarith

theorem lookupD_nonneg {m : List (String × Rat)} (h : ∀ p ∈ m, 0 ≤ p.2)
    (k : String) : 0 ≤ lookupD m k := by
  unfold lookupD
  cases hf : m.find? (fun p => p.1 == k) with
  | none => exact le_refl 0
  | some p => exact h p (List.mem_of_find?_eq_some hf)

theorem calculate_eigenvector_centrality_of_ne (g : Graph) (o : CentralityOracles)
    (hne : g.nodes ≠ []) :
    calculate_eigenvector_centrality g o =
      Except.ok (match o.eigenvector with
        | Except.ok m => some m
        | Except.error _ => none) := by
  unfold calculate_eigenvector_centrality nxEigenvectorCentrality
  rw [if_neg hne]
  cases o.eigenvector <;> rfl

/-- The null-graph guard of `identify_hub_genes` is the propagated
eigenvector-step failure: on a zero-node graph the eigenvector computation
raises `NetworkXPointlessConcept` and `identify_hub_genes` fails with the
same exception, for every oracle, `top_n` and method. -/
theorem identify_null_graph_propagates_eigenvector_failure (g : Graph)
    (o : CentralityOracles) (top_n : Int) (method : String) (hg : g.nodes = []) :
    calculate_eigenvector_centrality g o =
      Except.error "cannot compute centrality for the null graph" ∧
    identify_hub_genes g o top_n method =
      Except.error "cannot compute centrality for the null graph" := by
  constructor
  · unfold calculate_eigenvector_centrality nxEigenvectorCentrality
    rw [if_pos hg]
  · unfold identify_hub_genes
    rw [if_pos hg]

theorem identify_combined_eq (g : Graph) (o : CentralityOracles) (top_n : Int)
    (hne : g.nodes ≠ []) :
    identify_hub_genes g o top_n "combined" =
      Except.ok (dfHead top_n (sortValuesDescending (fun r => r.combined_score.getD 0)
        (combinedRows (calculate_all_centralities g o)))) := by
  unfold identify_hub_genes
  rw [if_neg hne]
  rfl

theorem combined_score_formula_bounds {a b c d : Rat}
    (ha : 0 ≤ a ∧ a ≤ 1) (hb : 0 ≤ b ∧ b ≤ 1) (hc : 0 ≤ c ∧ c ≤ 1)
    (hd : 0 ≤ d ∧ d ≤ 1) :
    0 ≤ (a + b + c + d) / 4 ∧ (a + b + c + d) / 4 ≤ 1 := by
  constructor
  · apply div_nonneg _ (by norm_num)
    linarith [ha.1, hb.1, hc.1, hd.1]
  · rw [div_le_one (by norm_num : (0 : Rat) < 4)]
    linarith [ha.2, hb.2, hc.2, hd.2]

/-- Oracle fixture: NetworkX returned empty metric maps and a converged
(empty) eigenvector map. -/
def oEmptyOracles : CentralityOracles := ⟨[], [], Except.ok []⟩

/-- Oracle fixture: eigenvector power iteration failed to converge. -/
def oFailedOracles : CentralityOracles :=
  ⟨[], [], Except.error PowerIterationFailedConvergence.mk⟩

/-- Tie fixture: two isolated nodes inserted in anti-lexicographic order. -/
def gTieFixture : Graph := build_ppi_network ["B_GENE", "A_GENE"] (QueryResponse.success [])

/-- A two-node, one-edge fixture. -/
def gC4Fixture : Graph :=
  build_ppi_network ["HUBA", "HUBB"] (QueryResponse.success [⟨"HUBA", "HUBB", 900⟩])

/-- A three-node path fixture GA—GB—GC. -/
def gPathFixture : Graph :=
  build_ppi_network ["GA", "GB", "GC"]
    (QueryResponse.success [⟨"GA", "GB", 500⟩, ⟨"GB", "GC", 700⟩])

/-- The literal value of `gPathFixture`. -/
def gPathLiteral : Graph :=
  { nodes := ["GA", "GB", "GC"], edges := [("GA", "GB", 500), ("GB", "GC", 700)] }

/-- A single-node fixture. -/
def gHub1Fixture : Graph := build_ppi_network ["HUB1"] (QueryResponse.success [])

/-- The single combined-ranking row produced on `gHub1Fixture`. -/
def rHub1Fixture : HubRow :=
  { gene := "HUB1", degree := 0, degree_centrality := 1, betweenness_centrality := 0,
    closeness_centrality := 0, eigenvector_centrality := 0,
    degree_centrality_norm := some 1, betweenness_centrality_norm := some 0,
    closeness_centrality_norm := some 0, eigenvector_centrality_norm := some 0,
    combined_score := some (1 / 4) }

/-- C1 counterexample: two records for the same unordered pair (900 then
150) leave the edge with weight 150 — the last record seen — not the
maximum 900 the claim asserts. -/
theorem C1_max_merge_counterexample :
    (build_ppi_network ["GENEA", "GENEB"]
        (QueryResponse.success [⟨"GENEA", "GENEB", 900⟩, ⟨"GENEB", "GENEA", 150⟩])).edgeWeight
        "GENEA" "GENEB" = some 150 ∧
    ¬ (build_ppi_network ["GENEA", "GENEB"]
        (QueryResponse.success [⟨"GENEA", "GENEB", 900⟩, ⟨"GENEB", "GENEA", 150⟩])).edgeWeight
        "GENEA" "GENEB" = some (max 900 150) := by
  decide

/-- C1 (amended): for every record sequence the assembled edge weight for
an unordered pair equals the confidence of the last kept record for that
pair — `networkx` dictionary overwrite is last-write-wins, not max. -/
theorem C1_duplicate_pair_last_write_wins (genes : List String)
    (recs : List InteractionRecord) (u v : String) (hg : genes ≠ []) :
    (build_ppi_network genes (QueryResponse.success recs)).edgeWeight u v =
      lastPairScore u v recs := by
  unfold build_ppi_network
  rw [if_neg hg]
  show (addIsolatedNodes (recs.foldl addInteraction Graph.emptyGraph) genes).edgeWeight u v =
    lastPairScore u v recs
  rw [edgeWeight_eq_of_edges_eq (addIsolatedNodes_edges genes _) u v,
    edgeWeight_foldl_addInteraction u v recs Graph.emptyGraph]
  cases h : lastPairScore u v recs with
  | some w => rfl
  | none => rfl

/-- C1 witness at the duplicate-record fixture. -/
theorem C1_duplicate_pair_last_write_wins_witness :
    (build_ppi_network ["GENEA", "GENEB"]
        (QueryResponse.success [⟨"GENEA", "GENEB", 900⟩, ⟨"GENEB", "GENEA", 150⟩])).edgeWeight
        "GENEA" "GENEB" =
      lastPairScore "GENEA" "GENEB" [⟨"GENEA", "GENEB", 900⟩, ⟨"GENEB", "GENEA", 150⟩] :=
  C1_duplicate_pair_last_write_wins ["GENEA", "GENEB"]
    [⟨"GENEA", "GENEB", 900⟩, ⟨"GENEB", "GENEA", 150⟩] "GENEA" "GENEB" (by decide)

/-- C2 counterexample: a record with `geneA == geneB` is not discarded; it
produces a self-loop edge carrying its score. -/
theorem C2_selfloop_discarded_counterexample :
    (build_ppi_network ["GENEX"]
        (QueryResponse.success [⟨"GENEX", "GENEX", 500⟩])).hasSelfLoop = true ∧
    (build_ppi_network ["GENEX"]
        (QueryResponse.success [⟨"GENEX", "GENEX", 500⟩])).edgeWeight "GENEX" "GENEX" =
      some 500 := by
  decide

/-- C2 (amended): a record whose two endpoint names coincide and are
non-empty is kept and yields a self-loop edge in the assembled graph (only
records with an empty endpoint name are dropped). -/
theorem C2_selfloop_records_become_selfloop_edges (genes : List String)
    (recs : List InteractionRecord) (r : InteractionRecord) (hg : genes ≠ [])
    (hr : r ∈ recs) (hab : r.nameA = r.nameB) (hne : r.nameA ≠ "") :
    (build_ppi_network genes (QueryResponse.success recs)).hasSelfLoop = true := by
  unfold build_ppi_network
  rw [if_neg hg]
  show (addIsolatedNodes (recs.foldl addInteraction Graph.emptyGraph) genes).hasSelfLoop = true
  rw [hasSelfLoop_addIsolatedNodes]
  exact hasSelfLoop_foldl_of_selfLoop_record hab hne recs Graph.emptyGraph hr

/-- C2 witness at a concrete self-loop record. -/
theorem C2_selfloop_records_become_selfloop_edges_witness :
    (build_ppi_network ["GENEY"]
        (QueryResponse.success [⟨"GENEY", "GENEY", 700⟩])).hasSelfLoop = true :=
  C2_selfloop_records_become_selfloop_edges ["GENEY"] [⟨"GENEY", "GENEY", 700⟩]
    ⟨"GENEY", "GENEY", 700⟩ (by decide) (by decide) rfl (by decide)

/-- C3: every queried gene becomes a node even with no interactions, and
the 3-gene/empty-response scenario yields 3 isolated nodes, 0 edges,
density 0 and 3 connected components in the statistics. -/
theorem C3_isolated_nodes_counted :
    (∀ (genes : List String) (resp : QueryResponse) (gene : String),
        gene ∈ genes → gene ∈ (build_ppi_network genes resp).nodes) ∧
    build_ppi_network ["TP53", "EGFR", "AKT1"] (QueryResponse.success []) =
      { nodes := ["TP53", "EGFR", "AKT1"], edges := [] } ∧
    (∀ gene ∈ (["TP53", "EGFR", "AKT1"] : List String),
        Graph.degree { nodes := ["TP53", "EGFR", "AKT1"], edges := [] } gene = 0) ∧
    (get_network_statistics { nodes := ["TP53", "EGFR", "AKT1"], edges := [] }).map
        (fun s => (s.nodes, s.edges, s.density, s.number_of_components)) =
      Except.ok (3, 0, 0, some 3) := by
  refine ⟨?_, by decide, by decide, by decide⟩
  intro genes resp gene hmem
  unfold build_ppi_network
  split
  case isTrue h =>
    subst h
    exact absurd hmem (List.not_mem_nil gene)
  case isFalse h =>
    exact (mem_addIsolatedNodes_nodes_iff gene genes _).mpr (Or.inr hmem)

/-- C3 witness: a gene of the query set is a node of the built graph. -/
theorem C3_isolated_nodes_counted_witness :
    "TP53" ∈ (build_ppi_network ["TP53"] (QueryResponse.success [])).nodes :=
  C3_isolated_nodes_counted.1 ["TP53"] (QueryResponse.success []) "TP53" (by decide)

/-- C6 counterexample: on a transport failure and on a non-200 status the
builder still publishes a graph (all queried genes, isolated) instead of
propagating a ServiceError; the query helper maps both failures to `[]`. -/
theorem C6_service_error_propagation_counterexample :
    build_ppi_network ["TP53", "EGFR"] (QueryResponse.httpError 500) =
      { nodes := ["TP53", "EGFR"], edges := [] } ∧
    build_ppi_network ["TP53", "EGFR"] (QueryResponse.requestException "timeout") =
      { nodes := ["TP53", "EGFR"], edges := [] } ∧
    queryStringNetwork (QueryResponse.httpError 500) = [] := by
  decide

/-- C6 (amended): interaction-service failures are swallowed by
`_query_string_network` (which returns `[]`), so `build_ppi_network`
publishes a graph whose nodes are exactly the queried genes and whose edge
set is empty — no error reaches the caller. -/
theorem C6_failures_swallowed_isolated_graph (genes : List String) (status : Nat)
    (msg : String) (hg : genes ≠ []) :
    queryStringNetwork (QueryResponse.httpError status) = [] ∧
    queryStringNetwork (QueryResponse.requestException msg) = [] ∧
    (build_ppi_network genes (QueryResponse.httpError status)).edges = [] ∧
    (build_ppi_network genes (QueryResponse.requestException msg)).edges = [] ∧
    (∀ x, x ∈ (build_ppi_network genes (QueryResponse.httpError status)).nodes ↔
      x ∈ genes) ∧
    (∀ x, x ∈ (build_ppi_network genes (QueryResponse.requestException msg)).nodes ↔
      x ∈ genes) := by
  refine ⟨rfl, rfl, ?_, ?_, ?_, ?_⟩
  · unfold build_ppi_network
    rw [if_neg hg]
    show (addIsolatedNodes Graph.emptyGraph genes).edges = []
    rw [addIsolatedNodes_edges]
    rfl
  · unfold build_ppi_network
    rw [if_neg hg]
    show (addIsolatedNodes Graph.emptyGraph genes).edges = []
    rw [addIsolatedNodes_edges]
    rfl
  · intro x
    unfold build_ppi_network
    rw [if_neg hg]
    show x ∈ (addIsolatedNodes Graph.emptyGraph genes).nodes ↔ x ∈ genes
    rw [mem_addIsolatedNodes_nodes_iff]
    simp [Graph.emptyGraph]
  · intro x
    unfold build_ppi_network
    rw [if_neg hg]
    show x ∈ (addIsolatedNodes Graph.emptyGraph genes).nodes ↔ x ∈ genes
    rw [mem_addIsolatedNodes_nodes_iff]
    simp [Graph.emptyGraph]

/-- C6 witness at a concrete failing call. -/
theorem C6_failures_swallowed_isolated_graph_witness :
    queryStringNetwork (QueryResponse.httpError 500) = [] ∧
    queryStringNetwork (QueryResponse.requestException "timeout") = [] ∧
    (build_ppi_network ["TP53", "EGFR"] (QueryResponse.httpError 500)).edges = [] ∧
    (build_ppi_network ["TP53", "EGFR"] (QueryResponse.requestException "timeout")).edges =
      [] ∧
    (∀ x, x ∈ (build_ppi_network ["TP53", "EGFR"] (QueryResponse.httpError 500)).nodes ↔
      x ∈ ["TP53", "EGFR"]) ∧
    (∀ x, x ∈ (build_ppi_network ["TP53", "EGFR"]
        (QueryResponse.requestException "timeout")).nodes ↔ x ∈ ["TP53", "EGFR"]) :=
  C6_failures_swallowed_isolated_graph ["TP53", "EGFR"] 500 "timeout" (by decide)

/-- C7 counterexample: the empty gene set and non-positive `top_n` do not
fail — assembly returns the empty graph, `top_n = 0` returns an empty hub
list and `top_n = -1` returns all but the last row, with no
InvalidArgument anywhere. -/
theorem C7_invalid_argument_counterexample :
    build_ppi_network [] (QueryResponse.success []) = Graph.emptyGraph ∧
    identify_hub_genes { nodes := ["N1", "N2"], edges := [] } oEmptyOracles 0 "combined" =
      Except.ok [] ∧
    (identify_hub_genes { nodes := ["N1", "N2"], edges := [] } oEmptyOracles (-1)
        "combined").map (fun l => l.length) = Except.ok 1 := by
  refine ⟨by decide, ?_, ?_⟩
  · rw [identify_combined_eq { nodes := ["N1", "N2"], edges := [] } oEmptyOracles 0
      (by decide)]
    norm_num [dfHead, sortValuesDescending, insertDescBy, combinedRows,
      calculate_all_centralities, oEmptyOracles, lookupD, colMax, normVal,
      Graph.degree, Graph.degreeCentralityOf]
  · rw [identify_combined_eq { nodes := ["N1", "N2"], edges := [] } oEmptyOracles (-1)
      (by decide)]
    norm_num [dfHead, sortValuesDescending, insertDescBy, combinedRows,
      calculate_all_centralities, oEmptyOracles, lookupD, colMax, normVal,
      Graph.degree, Graph.degreeCentralityOf, Except.map]

/-- C7 (amended): no InvalidArgument validation exists — an empty gene set
yields the empty graph without error, and on any graph with at least one
node `top_n = 0` yields an empty hub list without error while only an
unknown method string fails (a KeyError on the missing column
`{method}_centrality`); on the zero-node graph every call, whatever the
method and `top_n`, instead fails with the uncaught
`NetworkXPointlessConcept` propagated from the eigenvector-centrality
step. -/
theorem C7_no_validation_only_unknown_method_fails :
    (∀ resp, build_ppi_network [] resp = Graph.emptyGraph) ∧
    (∀ (g : Graph) (o : CentralityOracles), g.nodes ≠ [] →
        identify_hub_genes g o 0 "combined" = Except.ok []) ∧
    (∀ (g : Graph) (o : CentralityOracles) (m : String), g.nodes ≠ [] →
        m ∉ hubMethods →
        identify_hub_genes g o 1 m = Except.error (m ++ "_centrality")) ∧
    (∀ (o : CentralityOracles) (top_n : Int) (m : String),
        identify_hub_genes Graph.emptyGraph o top_n m =
          Except.error "cannot compute centrality for the null graph") := by
  refine ⟨?_, ?_, ?_, ?_⟩
  · intro resp
    unfold build_ppi_network
    rw [if_pos rfl]
  · intro g o hne
    rw [identify_combined_eq g o 0 hne]
    unfold dfHead
    rw [if_pos (le_refl (0 : Int))]
    simp
  · intro g o m hne hm
    simp only [hubMethods, List.mem_cons, List.not_mem_nil, or_false, not_or] at hm
    obtain ⟨h1, h2, h3, h4, h5⟩ := hm
    unfold identify_hub_genes
    rw [if_neg hne, if_neg h5, if_neg h1, if_neg h2, if_neg h3, if_neg h4]
  · intro o top_n m
    exact (identify_null_graph_propagates_eigenvector_failure Graph.emptyGraph o
      top_n m rfl).2

/-- C7 witness: an unknown ranking method fails with the KeyError column
on a one-node graph. -/
theorem C7_no_validation_only_unknown_method_fails_witness :
    identify_hub_genes { nodes := ["N1"], edges := [] } oEmptyOracles 1 "pagerank" =
      Except.error "pagerank_centrality" :=
  C7_no_validation_only_unknown_method_fails.2.2.1 { nodes := ["N1"], edges := [] }
    oEmptyOracles "pagerank" (by decide) (by decide)

/-- C9: `perform_clustering` passes no seed to the randomized Louvain call
(`louvain_communities(self.network)`, seed defaulting to `None`), so the
published partition is a function of the library's uncontrolled output:
two admissible outputs for the same graph — the same six nodes split into
the same two communities, listed in a different order — already yield
different cluster dictionaries. -/
theorem C9_clustering_depends_on_unseeded_library_output :
    List.Perm
      (["AKT1", "EGFR", "TP53"] ++ ["MTOR", "PIK3CA", "PTEN"])
      (["MTOR", "PIK3CA", "PTEN"] ++ ["AKT1", "EGFR", "TP53"]) ∧
    perform_clustering [["AKT1", "EGFR", "TP53"], ["MTOR", "PIK3CA", "PTEN"]] ≠
      perform_clustering [["MTOR", "PIK3CA", "PTEN"], ["AKT1", "EGFR", "TP53"]] := by
  decide

/-- C10: `get_network_statistics` returns a record for every graph with at
least one node, but raises the `nx.is_connected` null-graph exception on
the zero-node graph, which `build_ppi_network` does return for an empty
gene list. -/
theorem C10_statistics_null_graph_raises :
    (∀ g : Graph, g.nodes ≠ [] → ∃ s, get_network_statistics g = Except.ok s) ∧
    get_network_statistics Graph.emptyGraph =
      Except.error "Connectivity is undefined for the null graph." ∧
    (∀ resp, build_ppi_network [] resp = Graph.emptyGraph) := by
  refine ⟨?_, rfl, ?_⟩
  · intro g hg
    unfold get_network_statistics
    cases hn : g.nodes with
    | nil => exact absurd hn hg
    | cons v t => exact ⟨_, rfl⟩
  · intro resp
    unfold build_ppi_network
    rw [if_pos rfl]

/-- C10 witness: a one-node graph gets a statistics record. -/
theorem C10_statistics_null_graph_raises_witness :
    ∃ s, get_network_statistics { nodes := ["N1"], edges := [] } = Except.ok s :=
  C10_statistics_null_graph_raises.1 { nodes := ["N1"], edges := [] } (by decide)

/-- C4 counterexample: two tied nodes inserted in order B, A come out in
that same row order — the tie is not broken lexicographically (ascending)
by gene symbol, which would put A_GENE first. -/
theorem C4_lexicographic_tiebreak_counterexample :
    (identify_hub_genes gTieFixture oEmptyOracles 2 "combined").map
        (fun l => l.map (fun r => (r.gene, r.combined_score))) =
      Except.ok [("B_GENE", some 0), ("A_GENE", some 0)] ∧
    ("A_GENE" : String) < "B_GENE" := by
  constructor
  · have hg : gTieFixture = { nodes := ["B_GENE", "A_GENE"], edges := [] } := by decide
    rw [identify_combined_eq gTieFixture oEmptyOracles 2 (by decide), hg]
    norm_num [dfHead, sortValuesDescending, insertDescBy, combinedRows,
      calculate_all_centralities, oEmptyOracles, lookupD, colMax, normVal,
      Graph.degree, Graph.degreeCentralityOf, Except.map]
  · simp
    decide

/-- C4 (amended): for every graph with at least one node, every oracle
assignment and every `K ≥ 1`, the combined ranking succeeds with exactly
`min(K, N)` records sorted by non-increasing `combined_score`, all drawn
from the graph's nodes — `K` exceeding `N` returns all nodes and is not an
error; ties keep the DataFrame row order (node insertion order), not
lexicographic order.  On the zero-node graph (which `build_ppi_network`
returns for an empty gene list) the call is not a success at all: it fails
with the uncaught `NetworkXPointlessConcept` from the eigenvector step. -/
theorem C4_hub_count_and_descending_order (g : Graph) (o : CentralityOracles)
    (K : Int) (hK : 1 ≤ K) (hne : g.nodes ≠ []) :
    (∃ l, identify_hub_genes g o K "combined" = Except.ok l ∧
      l.length = min K.toNat g.nodes.length ∧
      List.Chain' (fun a b => b.combined_score.getD 0 ≤ a.combined_score.getD 0) l ∧
      ∀ r ∈ l, r.gene ∈ g.nodes) ∧
    identify_hub_genes Graph.emptyGraph o K "combined" =
      Except.error "cannot compute centrality for the null graph" := by
  have h0 : (0 : Int) ≤ K := by omega
  refine ⟨⟨_, identify_combined_eq g o K hne, ?_, ?_, ?_⟩,
    (identify_null_graph_propagates_eigenvector_failure Graph.emptyGraph o K
      "combined" rfl).2⟩
  · unfold dfHead
    rw [if_pos h0, List.length_take, length_sortValuesDescending]
    unfold combinedRows calculate_all_centralities
    rw [List.length_map, List.length_map]
  · unfold dfHead
    rw [if_pos h0]
    exact chain'_take _ _ (chain'_sortValuesDescending _ _)
  · intro r hr
    have hr2 : r ∈ sortValuesDescending (fun r => r.combined_score.getD 0)
        (combinedRows (calculate_all_centralities g o)) := by
      unfold dfHead at hr
      rw [if_pos h0] at hr
      exact List.take_subset _ _ hr
    have hr3 := mem_sortValuesDescending _ _ _ hr2
    unfold combinedRows at hr3
    rw [List.mem_map] at hr3
    obtain ⟨row, hrow, heq⟩ := hr3
    unfold calculate_all_centralities at hrow
    rw [List.mem_map] at hrow
    obtain ⟨node, hnode, heq2⟩ := hrow
    rw [← heq]
    show row.gene ∈ g.nodes
    rw [← heq2]
    exact hnode

/-- C4 witness at a two-node fixture with `K = 5 > N = 2`, alongside the
null-graph failure. -/
theorem C4_hub_count_and_descending_order_witness :
    (∃ l, identify_hub_genes gC4Fixture oEmptyOracles 5 "combined" = Except.ok l ∧
      l.length = min (5 : Int).toNat gC4Fixture.nodes.length ∧
      List.Chain' (fun a b => b.combined_score.getD 0 ≤ a.combined_score.getD 0) l ∧
      ∀ r ∈ l, r.gene ∈ gC4Fixture.nodes) ∧
    identify_hub_genes Graph.emptyGraph oEmptyOracles 5 "combined" =
      Except.error "cannot compute centrality for the null graph" :=
  C4_hub_count_and_descending_order gC4Fixture oEmptyOracles 5 (by norm_num) (by decide)

/-- C5 counterexample: on the path GA—GB—GC the degree-centrality column
[1/2, 1, 1/2] is normalized by the code to [1/2, 1, 1/2] (division by the
maximum), whereas the min-max transform the claim asserts yields
[0, 1, 0]. -/
theorem C5_minmax_normalization_counterexample :
    (combinedRows (calculate_all_centralities gPathFixture oEmptyOracles)).map
        (fun r => r.degree_centrality_norm) = [some (1 / 2), some 1, some (1 / 2)] ∧
    minMaxNormalizeSpec ((calculate_all_centralities gPathFixture oEmptyOracles).map
        (fun r => r.degree_centrality)) = [0, 1, 0] ∧
    ((1 : Rat) / 2) ≠ 0 := by
  have hg : gPathFixture = gPathLiteral := by decide
  refine ⟨?_, ?_, by norm_num⟩
  · rw [hg]
    simp [gPathLiteral, combinedRows, calculate_all_centralities, oEmptyOracles, lookupD,
      colMax, normVal, Graph.degree, Graph.degreeCentralityOf, max_def]
    norm_num
  · rw [hg]
    simp [gPathLiteral, minMaxNormalizeSpec, calculate_all_centralities, oEmptyOracles,
      lookupD, colMax, Graph.degree, Graph.degreeCentralityOf, max_def, min_def]
    norm_num

/-- C5 (amended): the `combined` branch divides each centrality column by
its maximum (an all-zero column when the maximum is 0 — no division by
zero), not a min-max transform; `combined_score` is the arithmetic mean of
the four normalized columns, and all normalized values together with the
score lie in [0,1] whenever the oracle metrics are nonnegative. -/
theorem C5_max_normalization_combined_score_bounds (g : Graph) (o : CentralityOracles)
    (hb : ∀ p ∈ o.betweenness, 0 ≤ p.2)
    (hc : ∀ p ∈ o.closeness, 0 ≤ p.2)
    (he : ∀ m, o.eigenvector = Except.ok m → ∀ p ∈ m, 0 ≤ p.2)
    (r : HubRow) (hr : r ∈ combinedRows (calculate_all_centralities g o)) :
    r.combined_score = some ((r.degree_centrality_norm.getD 0 +
        r.betweenness_centrality_norm.getD 0 + r.closeness_centrality_norm.getD 0 +
        r.eigenvector_centrality_norm.getD 0) / 4) ∧
    (0 ≤ r.degree_centrality_norm.getD 0 ∧ r.degree_centrality_norm.getD 0 ≤ 1) ∧
    (0 ≤ r.betweenness_centrality_norm.getD 0 ∧
      r.betweenness_centrality_norm.getD 0 ≤ 1) ∧
    (0 ≤ r.closeness_centrality_norm.getD 0 ∧ r.closeness_centrality_norm.getD 0 ≤ 1) ∧
    (0 ≤ r.eigenvector_centrality_norm.getD 0 ∧
      r.eigenvector_centrality_norm.getD 0 ≤ 1) ∧
    (0 ≤ r.combined_score.getD 0 ∧ r.combined_score.getD 0 ≤ 1) := by
  unfold combinedRows at hr
  rw [List.mem_map] at hr
  obtain ⟨row, hrow, heq⟩ := hr
  have hdc_mem : row.degree_centrality ∈
      (calculate_all_centralities g o).map (fun s => s.degree_centrality) :=
    List.mem_map_of_mem _ hrow
  have hbc_mem : row.betweenness_centrality ∈
      (calculate_all_centralities g o).map (fun s => s.betweenness_centrality) :=
    List.mem_map_of_mem _ hrow
  have hcc_mem : row.closeness_centrality ∈
      (calculate_all_centralities g o).map (fun s => s.closeness_centrality) :=
    List.mem_map_of_mem _ hrow
  have hec_mem : row.eigenvector_centrality ∈
      (calculate_all_centralities g o).map (fun s => s.eigenvector_centrality) :=
    List.mem_map_of_mem _ hrow
  have hrow2 := hrow
  unfold calculate_all_centralities at hrow2
  rw [List.mem_map] at hrow2
  obtain ⟨node, hnode, heq2⟩ := hrow2
  have h0dc : 0 ≤ row.degree_centrality := by
    rw [← heq2]
    exact degreeCentralityOf_nonneg g node
  have h0bc : 0 ≤ row.betweenness_centrality := by
    rw [← heq2]
    exact lookupD_nonneg hb node
  have h0cc : 0 ≤ row.closeness_centrality := by
    rw [← heq2]
    exact lookupD_nonneg hc node
  have h0ec : 0 ≤ row.eigenvector_centrality := by
    rw [← heq2]
    cases hoe : o.eigenvector with
    | ok m => exact lookupD_nonneg (he m hoe) node
    | error e => exact le_refl 0
  have bdc := normVal_bounds h0dc (le_colMax hdc_mem)
  have bbc := normVal_bounds h0bc (le_colMax hbc_mem)
  have bcc := normVal_bounds h0cc (le_colMax hcc_mem)
  have bec := normVal_bounds h0ec (le_colMax hec_mem)
  have bcs := combined_score_formula_bounds bdc bbc bcc bec
  rw [← heq]
  exact ⟨rfl, bdc, bbc, bcc, bec, bcs⟩

/-- C5 witness: the single combined row of a one-node graph. -/
theorem C5_max_normalization_combined_score_bounds_witness :
    rHub1Fixture.combined_score = some ((rHub1Fixture.degree_centrality_norm.getD 0 +
        rHub1Fixture.betweenness_centrality_norm.getD 0 +
        rHub1Fixture.closeness_centrality_norm.getD 0 +
        rHub1Fixture.eigenvector_centrality_norm.getD 0) / 4) ∧
    (0 ≤ rHub1Fixture.degree_centrality_norm.getD 0 ∧
      rHub1Fixture.degree_centrality_norm.getD 0 ≤ 1) ∧
    (0 ≤ rHub1Fixture.betweenness_centrality_norm.getD 0 ∧
      rHub1Fixture.betweenness_centrality_norm.getD 0 ≤ 1) ∧
    (0 ≤ rHub1Fixture.closeness_centrality_norm.getD 0 ∧
      rHub1Fixture.closeness_centrality_norm.getD 0 ≤ 1) ∧
    (0 ≤ rHub1Fixture.eigenvector_centrality_norm.getD 0 ∧
      rHub1Fixture.eigenvector_centrality_norm.getD 0 ≤ 1) ∧
    (0 ≤ rHub1Fixture.combined_score.getD 0 ∧ rHub1Fixture.combined_score.getD 0 ≤ 1) :=
  C5_max_normalization_combined_score_bounds gHub1Fixture oEmptyOracles
    (by intro p hp; exact absurd hp (List.not_mem_nil p))
    (by intro p hp; exact absurd hp (List.not_mem_nil p))
    (fun m hm => by
      cases hm
      intro p hp
      exact absurd hp (List.not_mem_nil p))
    rHub1Fixture
    (by
      have hg : gHub1Fixture = { nodes := ["HUB1"], edges := [] } := by decide
      rw [hg]
      norm_num [rHub1Fixture, combinedRows, calculate_all_centralities, oEmptyOracles,
        lookupD, colMax, normVal, Graph.degree, Graph.degreeCentralityOf])

/-- C8: when eigenvector power iteration fails to converge, the caught
exception leaves the eigenvector metric unset, so every row's
`eigenvector_centrality` is 0, and the combined ranking still returns a
result instead of raising.  The `g.nodes ≠ []` hypothesis mirrors the
program: power iteration can only run — and hence only fail to converge —
on a non-null graph, since `nx.eigenvector_centrality` raises
`NetworkXPointlessConcept` before iterating otherwise. -/
theorem C8_nonconvergence_zero_eigenvector_combined_completes (g : Graph)
    (o : CentralityOracles) (K : Int) (hne : g.nodes ≠ [])
    (h : o.eigenvector = Except.error PowerIterationFailedConvergence.mk) :
    (∀ r ∈ calculate_all_centralities g o, r.eigenvector_centrality = 0) ∧
    ∃ l, identify_hub_genes g o K "combined" = Except.ok l := by
  constructor
  · intro r hr
    unfold calculate_all_centralities at hr
    rw [List.mem_map] at hr
    obtain ⟨node, hnode, heq⟩ := hr
    rw [← heq, h]
  · exact ⟨_, identify_combined_eq g o K hne⟩

/-- C8 witness at a one-node graph with a non-converged oracle. -/
theorem C8_nonconvergence_zero_eigenvector_combined_completes_witness :
    (∀ r ∈ calculate_all_centralities { nodes := ["N1"], edges := [] } oFailedOracles,
        r.eigenvector_centrality = 0) ∧
    ∃ l, identify_hub_genes { nodes := ["N1"], edges := [] } oFailedOracles 3 "combined" =
      Except.ok l :=
  C8_nonconvergence_zero_eigenvector_combined_completes { nodes := ["N1"], edges := [] }
    oFailedOracles 3 (by decide) rfl

end HerbNet
